import Mathlib

/-!
A shallow embedding of the pdf-merge program (src/main.rs), centred on its
`merge_documents` function, together with models of the document object-model
library primitives it calls (spec sections 3 and 6).  Ordered maps
(`BTreeMap`) are key-sorted association lists, insertion-ordered dictionaries
are plain association lists, and the panic from `unwrap` on a failed object
lookup is modelled by `Option`.
-/

namespace PdfMerge

/-!
PDF object identifiers are, in the library, pairs of an object number and a
generation number ordered lexicographically; the merge never changes
generation numbers and keys every map by the number, so the embedding
represents an identifier by its numeric component, a `Nat`.
-/

/-- The polymorphic PDF object value (spec section 3): dictionary, array,
reference, stream, or a scalar.  `Text` plays the role of the string scalar
variant; the floating-point scalar is not needed by the merge and is omitted. -/
inductive Object where
  | Null
  | Boolean (b : Bool)
  | Integer (i : Int)
  | Name (s : String)
  | Text (s : String)
  | Reference (id : Nat)
  | Array (elems : List Object)
  | Dictionary (entries : List (String × Object))
  | Stream (dict : List (String × Object)) (content : List Nat)

/-- Insertion-ordered dictionary lookup (the library dictionary's `get`). -/
def dictGet (d : List (String × Object)) (k : String) : Option Object :=
  match d with
  | [] => none
  | e :: rest => if e.1 = k then some e.2 else dictGet rest k

/-- Dictionary insert (`Dictionary.set`): replaces the value in place when the
key is present, otherwise appends the new entry at the end. -/
def dictSet (d : List (String × Object)) (k : String) (v : Object) : List (String × Object) :=
  if d.any (fun e => decide (e.1 = k)) then
    d.map (fun e => if e.1 = k then (k, v) else e)
  else d ++ [(k, v)]

/-- Dictionary removal (`Dictionary.remove`). -/
def dictRemove (d : List (String × Object)) (k : String) : List (String × Object) :=
  d.filter (fun e => decide (¬ e.1 = k))

/-- `self.extend(other)` (spec sections 4.3 and 6): every entry of `other` is
inserted into `self`, overriding the value of an already present key. -/
def dictExtend (self other : List (String × Object)) : List (String × Object) :=
  other.foldl (fun acc e => dictSet acc e.1 e.2) self

/-- Ordered-map (`BTreeMap`) insert on a key-sorted association list. -/
def btreeInsert (m : List (Nat × Object)) (k : Nat) (v : Object) :
    List (Nat × Object) :=
  match m with
  | [] => [(k, v)]
  | e :: rest =>
    if k < e.1 then (k, v) :: e :: rest
    else if k = e.1 then (k, v) :: rest
    else e :: btreeInsert rest k v

/-- Ordered-map lookup. -/
def btreeLookup (m : List (Nat × Object)) (k : Nat) : Option Object :=
  match m with
  | [] => none
  | e :: rest => if e.1 = k then some e.2 else btreeLookup rest k

/-- The `Type` name tag of a dictionary, when present. -/
def dictTypeName (d : List (String × Object)) : Option String :=
  match dictGet d "Type" with
  | some (Object.Name s) => some s
  | _ => none

/-- `Object.type_name`: the structural role tag, read from the dictionary of a
dictionary or stream object (spec sections 3 and 6). -/
def Object.type_name : Object → Option String
  | Object.Dictionary d => dictTypeName d
  | Object.Stream d _ => dictTypeName d
  | _ => none

/-- `Object.as_dict`: the dictionary form of a dictionary object. -/
def Object.as_dict : Object → Option (List (String × Object))
  | Object.Dictionary d => some d
  | _ => none

/-- A navigation bookmark (spec section 3): title, colour marker, indentation
level and target object.  The colour triple (0, 0, 1) stands for the constant
blue marker `[0.0, 0.0, 1.0]` of the source. -/
structure Bookmark where
  title : String
  color : Nat × Nat × Nat
  level : Nat
  page : Nat

/-- A document: object store (key-sorted), trailer dictionary, version tag,
running `max_id`, and the bookmark list the merge appends to. -/
structure Document where
  version : String
  trailer : List (String × Object)
  objects : List (Nat × Object)
  max_id : Nat
  bookmarks : List Bookmark

/-- `Document::with_version`: a fresh empty document. -/
def Document.with_version (v : String) : Document :=
  { version := v, trailer := [], objects := [], max_id := 0, bookmarks := [] }

/-- `Document.get_object`: store lookup; `none` models the NotFound error. -/
def Document.get_object (doc : Document) (id : Nat) : Option Object :=
  btreeLookup doc.objects id

/-- `Document.add_bookmark(b, None)`: appends to the bookmark list. -/
def Document.add_bookmark (doc : Document) (b : Bookmark) : Document :=
  { doc with bookmarks := doc.bookmarks ++ [b] }

/-- The ids present in a document's store. -/
def Document.objectIds (doc : Document) : List Nat :=
  doc.objects.map Prod.fst

/-- The id replacement map built by the renumberer: the store's ids, in
ascending store order, are mapped to `start`, `start + 1`, ... (spec
section 4.1, matching the library's ascending-id assignment). -/
def renumAssign (ids : List Nat) (start : Nat) : List (Nat × Nat) :=
  match ids with
  | [] => []
  | i :: rest => (i, start) :: renumAssign rest (start + 1)

/-- Apply an id replacement map; ids outside the map are unchanged. -/
def applyRenum (σ : List (Nat × Nat)) (id : Nat) : Nat :=
  match σ.find? (fun e => decide (e.1 = id)) with
  | some e => e.2
  | none => id

mutual
/-- Rewrite every reference inside an object with the replacement map. -/
def renumberObject (σ : List (Nat × Nat)) : Object → Object
  | Object.Reference id => Object.Reference (applyRenum σ id)
  | Object.Array xs => Object.Array (renumberObjectList σ xs)
  | Object.Dictionary d => Object.Dictionary (renumberEntryList σ d)
  | Object.Stream d c => Object.Stream (renumberEntryList σ d) c
  | o => o

/-- Rewrite references inside every object of a list. -/
def renumberObjectList (σ : List (Nat × Nat)) : List Object → List Object
  | [] => []
  | x :: xs => renumberObject σ x :: renumberObjectList σ xs

/-- Rewrite references inside every value of a dictionary. -/
def renumberEntryList (σ : List (Nat × Nat)) :
    List (String × Object) → List (String × Object)
  | [] => []
  | e :: rest => (e.1, renumberObject σ e.2) :: renumberEntryList σ rest
end

/-- Re-key a key-sorted store: the k-th entry receives id `start + k` and its
value's references are rewritten with the replacement map. -/
def renumEntries (σ : List (Nat × Nat)) (start : Nat) :
    List (Nat × Object) → List (Nat × Object)
  | [] => []
  | e :: rest => (start, renumberObject σ e.2) :: renumEntries σ (start + 1) rest

/-- `Document.renumber_objects_with(start)` (spec section 4.1): reassigns the
store's ids to the contiguous range beginning at `start` (in ascending old-id
order, as the library does), rewrites every internal reference accordingly,
and records the highest id used in `max_id`. -/
def Document.renumber_objects_with (doc : Document) (start : Nat) : Document :=
  let σ := renumAssign (doc.objects.map Prod.fst) start
  { doc with
    objects := renumEntries σ start doc.objects
    trailer := renumberEntryList σ doc.trailer
    max_id := start + doc.objects.length - 1 }

/-- `Document.renumber_objects()`: renumber densely from 1. -/
def Document.renumber_objects (doc : Document) : Document :=
  doc.renumber_objects_with 1

/-- Modelled from the spec (sections 4.2 and 6, `Document.get_pages`): walk
the page tree depth-first following `Kids` references; `Pages` nodes are
descended into and `Page` nodes are emitted in traversal order.  A kid that
does not resolve to a typed dictionary is skipped, as in the library.  The
fuel argument bounds the recursion depth (cycle guard). -/
def pageTreeWalk (doc : Document) : Nat → Nat → List Nat
  | 0, _ => []
  | fuel + 1, id =>
    match doc.get_object id with
    | some (Object.Dictionary d) =>
      if dictTypeName d = some "Page" then [id]
      else if dictTypeName d = some "Pages" then
        match dictGet d "Kids" with
        | some (Object.Array kids) =>
          kids.foldr (fun kid acc =>
            match kid with
            | Object.Reference kidId => pageTreeWalk doc fuel kidId ++ acc
            | _ => acc) []
        | _ => []
      else []
    | _ => []

/-- Modelled from the spec (sections 4.2 and 6): `Document.get_pages` returns
the (1-based page number, Nat) sequence of the document's pages in the
document's own page-tree order, starting from the trailer root's `Pages`
reference. -/
def Document.get_pages (doc : Document) : List (Nat × Nat) :=
  match dictGet doc.trailer "Root" with
  | some (Object.Reference rootId) =>
    match doc.get_object rootId with
    | some (Object.Dictionary cat) =>
      match dictGet cat "Pages" with
      | some (Object.Reference pagesId) =>
        (pageTreeWalk doc (doc.objects.length + 1) pagesId).enumFrom 1
      | _ => []
    | _ => []
  | _ => []

/-- Modelled from the spec (section 4.5 step 1, `Document.adjust_zero_pages`):
a bookmark whose target is not a `Page`-typed object still present in the
store is rebound to the target's first structural child, when one exists. -/
def Document.adjust_zero_pages (doc : Document) : Document :=
  { doc with bookmarks := doc.bookmarks.map (fun b =>
      match doc.get_object b.page with
      | some o =>
        if o.type_name = some "Page" then b
        else
          match o.as_dict with
          | some d =>
            match dictGet d "Kids" with
            | some (Object.Array (Object.Reference k :: _)) => { b with page := k }
            | _ => b
          | none => b
      | none => b) }

/-- Modelled from the spec (sections 4.5 step 2 and 6,
`Document.build_outline`): serializes the bookmark list into an outline tree
inserted at fresh ids above `max_id` and returns the outline root's id, or
`none` when there are no bookmarks. -/
def Document.build_outline (doc : Document) : Document × Option Nat :=
  match doc.bookmarks with
  | [] => (doc, none)
  | bs =>
    let base := doc.max_id
    let n := bs.length
    let rootId := base + n + 1
    let items := (bs.enumFrom 1).map (fun p =>
      (base + p.1, Object.Dictionary
        [("Title", Object.Text p.2.title),
         ("Parent", Object.Reference rootId),
         ("Dest", Object.Array [Object.Reference p.2.page])]))
    let withItems := items.foldl (fun m e => btreeInsert m e.1 e.2) doc.objects
    let root := Object.Dictionary
      [("Type", Object.Name "Outlines"),
       ("First", Object.Reference (base + 1)),
       ("Last", Object.Reference (base + n)),
       ("Count", Object.Integer n)]
    ({ doc with objects := btreeInsert withItems rootId root, max_id := rootId }, some rootId)

/-- The library's compress step re-encodes stream payloads only; at this level
of abstraction the document is unchanged. -/
def Document.compress (doc : Document) : Document := doc

/-- The mutable state of the input-collection loop of `merge_documents`
(lines 41-77): running `max_id` and bookmark counter, the two accumulated
ordered maps, and the merged document under construction. -/
structure CollectState where
  max_id : Nat
  pagenum : Nat
  documents_pages : List (Nat × Object)
  documents_objects : List (Nat × Object)
  document : Document

/-- `doc.get_object(object_id).unwrap().to_owned()` for each collected page
id (lines 56-75); `none` models the panic when a listed id does not resolve. -/
def lookupPages (doc : Document) : List (Nat × Nat) → Option (List (Nat × Object))
  | [] => some []
  | p :: rest =>
    match doc.get_object p.2 with
    | none => none
    | some o =>
      match lookupPages doc rest with
      | none => none
      | some es => some ((p.2, o) :: es)

/-- One iteration of the input loop (lines 50-77): renumber the document at
the running offset, bookmark its first page when it has one, collect its
pages and all its objects. -/
def collectStep (st : CollectState) (doc0 : Document) : Option CollectState :=
  let doc := doc0.renumber_objects_with st.max_id
  let pages := doc.get_pages
  let stepped :=
    match pages.head? with
    | some p =>
      (st.document.add_bookmark
        { title := "Page_" ++ toString st.pagenum, color := (0, 0, 1), level := 0, page := p.2 },
       st.pagenum + 1)
    | none => (st.document, st.pagenum)
  match lookupPages doc pages with
  | none => none
  | some entries =>
    some { max_id := doc.max_id + 1
           pagenum := stepped.2
           documents_pages := entries.foldl (fun m e => btreeInsert m e.1 e.2) st.documents_pages
           documents_objects := doc.objects.foldl (fun m e => btreeInsert m e.1 e.2)
             st.documents_objects
           document := stepped.1 }

/-- The initial loop state: `max_id = 1`, `pagenum = 1`, empty maps, and a
fresh version-1.5 document. -/
def initCollectState : CollectState :=
  { max_id := 1, pagenum := 1, documents_pages := [], documents_objects := [],
    document := Document.with_version "1.5" }

/-- The input loop, threading the state through the documents in order. -/
def collectPhaseAux (st : CollectState) : List Document → Option CollectState
  | [] => some st
  | d :: rest =>
    match collectStep st d with
    | none => none
    | some st' => collectPhaseAux st' rest

/-- The complete collection phase of `merge_documents`. -/
def collectPhase (docs : List Document) : Option CollectState :=
  collectPhaseAux initCollectState docs

/-- The renumbered input documents, with the running offsets the merge uses:
each document starts at the previous document's `max_id + 1`. -/
def renumberSeq (docs : List Document) (start : Nat) : List Document :=
  match docs with
  | [] => []
  | d :: rest =>
    let d' := d.renumber_objects_with start
    d' :: renumberSeq rest (d'.max_id + 1)

/-- The state of the root-reconciliation loop (lines 79-127). -/
structure ReconcileState where
  catalog_object : Option (Nat × Object)
  pages_object : Option (Nat × Object)
  document : Document

/-- One iteration of the classification loop (lines 84-127), matching on the
object's type name with `unwrap_or("")`. -/
def classifyStep (st : ReconcileState) (e : Nat × Object) : ReconcileState :=
  let t := (e.2.type_name).getD ""
  if t = "Catalog" then
    let keptId := match st.catalog_object with | some p => p.1 | none => e.1
    { st with catalog_object := some (keptId, e.2) }
  else if t = "Pages" then
    match e.2.as_dict with
    | some d =>
      let merged :=
        match st.pages_object with
        | some p =>
          match p.2.as_dict with
          | some old => dictExtend d old
          | none => d
        | none => d
      let keptId := match st.pages_object with | some p => p.1 | none => e.1
      { st with pages_object := some (keptId, Object.Dictionary merged) }
    | none => st
  else if t = "Page" then st
  else if t = "Outlines" then st
  else if t = "Outline" then st
  else
    let doc' := { st.document with objects := btreeInsert st.document.objects e.1 e.2 }
    { st with document := doc' }

/-- The root-reconciliation loop over the combined object map. -/
def reconcile (entries : List (Nat × Object)) (doc : Document) : ReconcileState :=
  entries.foldl classifyStep { catalog_object := none, pages_object := none, document := doc }

/-- Lines 137-146: reparent every collected page that is a dictionary under
the authoritative Pages id and insert it into the merged store. -/
def pagesLoopDoc (doc : Document) (documents_pages : List (Nat × Object))
    (pid : Nat) : Document :=
  documents_pages.foldl (fun d e =>
    match e.2.as_dict with
    | some pd =>
      let v := Object.Dictionary (dictSet pd "Parent" (Object.Reference pid))
      { d with objects := btreeInsert d.objects e.1 v }
    | none => d) doc

/-- Lines 159-172: rewrite the authoritative Pages dictionary's `Count` to the
collected page total and its `Kids` to the collected page ids as references. -/
def rebuildPagesDict (pd : List (String × Object))
    (documents_pages : List (Nat × Object)) : List (String × Object) :=
  dictSet (dictSet pd "Count" (Object.Integer documents_pages.length))
    "Kids" (Object.Array (documents_pages.map (fun e => Object.Reference e.1)))

/-- Lines 190-210: set the trailer root, reset `max_id` to the store size,
renumber densely, adjust dangling bookmarks, build the outline tree and link
it from the object found at the catalog's pre-renumbering id, and compress. -/
def finishDoc (doc : Document) (cid : Nat) : Document :=
  let doc4 := { doc with trailer := dictSet doc.trailer "Root" (Object.Reference cid) }
  let doc5 := { doc4 with max_id := doc4.objects.length }
  let doc6 := doc5.renumber_objects
  let doc7 := doc6.adjust_zero_pages
  let built := doc7.build_outline
  let doc9 :=
    match built.2 with
    | some n =>
      match built.1.get_object cid with
      | some (Object.Dictionary d) =>
        let v := Object.Dictionary (dictSet d "Outlines" (Object.Reference n))
        { built.1 with objects := btreeInsert built.1.objects cid v }
      | _ => built.1
    | none => built.1
  doc9.compress

/-- The embedding of `merge_documents` (src/main.rs lines 41-211).  `none`
models the panic of the page-lookup `unwrap`. -/
def merge_documents (input_documents : List Document) : Option Document :=
  match collectPhase input_documents with
  | none => none
  | some st =>
    let rs := reconcile st.documents_objects st.document
    match rs.pages_object with
    | none => some rs.document
    | some p =>
      let doc1 := pagesLoopDoc rs.document st.documents_pages p.1
      match rs.catalog_object with
      | none => some doc1
      | some c =>
        let doc2 :=
          match p.2.as_dict with
          | some pd =>
            let v := Object.Dictionary (rebuildPagesDict pd st.documents_pages)
            { doc1 with objects := btreeInsert doc1.objects p.1 v }
          | none => doc1
        let doc3 :=
          match c.2.as_dict with
          | some cd =>
            let v := Object.Dictionary
              (dictRemove (dictSet cd "Pages" (Object.Reference p.1)) "Outlines")
            { doc2 with objects := btreeInsert doc2.objects c.1 v }
          | none => doc2
        some (finishDoc doc3 c.1)

/-! Extraction helpers used to state concrete properties of merge results. -/

/-- The id a reference object points to. -/
def refIdOf : Option Object → Option Nat
  | some (Object.Reference i) => some i
  | _ => none

/-- The reference id stored under a dictionary key. -/
def dictGetRefId (d : List (String × Object)) (k : String) : Option Nat :=
  refIdOf (dictGet d k)

/-- The integer stored under a dictionary key. -/
def dictGetInt (d : List (String × Object)) (k : String) : Option Int :=
  match dictGet d k with
  | some (Object.Integer i) => some i
  | _ => none

/-- The reference ids of a dictionary's `Kids` array (a non-reference entry
shows up as 0). -/
def kidsIdsOf (d : List (String × Object)) : Option (List Nat) :=
  match dictGet d "Kids" with
  | some (Object.Array xs) =>
    some (xs.map (fun o => match o with | Object.Reference i => i | _ => 0))
  | _ => none

/-- The dictionary of the catalog the trailer root points to. -/
def catalogDictOf (doc : Document) : Option (List (String × Object)) :=
  match dictGet doc.trailer "Root" with
  | some (Object.Reference r) => (doc.get_object r).bind Object.as_dict
  | _ => none

/-- The catalog dictionary of a merge result. -/
def mergedCatalogDict (docs : List Document) : Option (List (String × Object)) :=
  (merge_documents docs).bind catalogDictOf

/-- The Pages dictionary a merge result's catalog points to. -/
def mergedPagesDict (docs : List Document) : Option (List (String × Object)) :=
  (merge_documents docs).bind (fun out =>
    (catalogDictOf out).bind (fun cd =>
      match dictGet cd "Pages" with
      | some (Object.Reference p) => (out.get_object p).bind Object.as_dict
      | _ => none))

/-- The page ids of a document in page-tree traversal order. -/
def pageIdsOf (doc : Document) : List Nat := doc.get_pages.map Prod.snd

/-! Concrete input documents used by counterexamples and witnesses. -/

/-- A minimal page object. -/
def pageDict : Object := Object.Dictionary [("Type", Object.Name "Page")]

/-- A document whose page tree lists its two pages in the order [4, 3],
opposite to the object-id order. -/
def exDocC1 : Document :=
  { version := "1.5"
    trailer := [("Root", Object.Reference 1)]
    objects :=
      [(1, Object.Dictionary [("Type", Object.Name "Catalog"), ("Pages", Object.Reference 2)]),
       (2, Object.Dictionary
         [("Type", Object.Name "Pages"),
          ("Kids", Object.Array [Object.Reference 4, Object.Reference 3]),
          ("Count", Object.Integer 2)]),
       (3, pageDict),
       (4, pageDict)]
    max_id := 4
    bookmarks := [] }

/-- A one-page document whose catalog carries an extra field X = x. -/
def exDocX (x : Int) : Document :=
  { version := "1.5"
    trailer := [("Root", Object.Reference 1)]
    objects :=
      [(1, Object.Dictionary
         [("Type", Object.Name "Catalog"), ("Pages", Object.Reference 2),
          ("X", Object.Integer x)]),
       (2, Object.Dictionary
         [("Type", Object.Name "Pages"),
          ("Kids", Object.Array [Object.Reference 3]),
          ("Count", Object.Integer 1)]),
       (3, pageDict)]
    max_id := 3
    bookmarks := [] }

/-- A one-page document whose store begins with an Outlines object, so its
catalog does not keep its id under the final dense renumbering. -/
def exDocC7 : Document :=
  { version := "1.5"
    trailer := [("Root", Object.Reference 2)]
    objects :=
      [(1, Object.Dictionary [("Type", Object.Name "Outlines")]),
       (2, Object.Dictionary [("Type", Object.Name "Catalog"), ("Pages", Object.Reference 3)]),
       (3, Object.Dictionary
         [("Type", Object.Name "Pages"),
          ("Kids", Object.Array [Object.Reference 4]),
          ("Count", Object.Integer 1)]),
       (4, pageDict)]
    max_id := 4
    bookmarks := [] }

/-- A document with no Pages-typed object: a catalog, a page reachable by
nothing, and an untyped font-like object. -/
def exDocC8 : Document :=
  { version := "1.5"
    trailer := [("Root", Object.Reference 1)]
    objects :=
      [(1, Object.Dictionary [("Type", Object.Name "Catalog")]),
       (2, pageDict),
       (3, Object.Dictionary [("Type", Object.Name "Font"), ("Name", Object.Name "F1")])]
    max_id := 3
    bookmarks := [] }

/-- A document whose trailer root object has no `Type` tag (so nothing
classifies as Catalog) but still points at a valid page tree. -/
def exDocC9 : Document :=
  { version := "1.5"
    trailer := [("Root", Object.Reference 1)]
    objects :=
      [(1, Object.Dictionary [("Pages", Object.Reference 2)]),
       (2, Object.Dictionary
         [("Type", Object.Name "Pages"),
          ("Kids", Object.Array [Object.Reference 3]),
          ("Count", Object.Integer 1)]),
       (3, pageDict)]
    max_id := 3
    bookmarks := [] }

/-- Two raw Pages-typed dictionary entries with a colliding key A, used to
exercise the first-seen-wins merge. -/
def entsC3 : List (Nat × Object) :=
  [(1, Object.Dictionary [("Type", Object.Name "Pages"), ("A", Object.Integer 1)]),
   (2, Object.Dictionary
     [("Type", Object.Name "Pages"), ("A", Object.Integer 2), ("B", Object.Integer 3)])]

/-- A well-formed two-page document (pages 2 and 3 in tree order). -/
def exDocTwoPages : Document :=
  { version := "1.5"
    trailer := [("Root", Object.Reference 4)]
    objects :=
      [(1, Object.Dictionary
         [("Type", Object.Name "Pages"),
          ("Kids", Object.Array [Object.Reference 2, Object.Reference 3]),
          ("Count", Object.Integer 2)]),
       (2, pageDict),
       (3, pageDict),
       (4, Object.Dictionary [("Type", Object.Name "Catalog"), ("Pages", Object.Reference 1)])]
    max_id := 4
    bookmarks := [] }

/-! Derived predicates and spec-side reference definitions. -/

/-- Keys of an ordered map are strictly ascending (the BTreeMap invariant). -/
def keysSorted (m : List (Nat × Object)) : Prop :=
  List.Pairwise (· < ·) (m.map Prod.fst)

/-- An object the classification loop inserts unchanged: neither Catalog,
Pages, Page, Outlines nor Outline (lines 120-126). -/
def isOtherEntry (e : Nat × Object) : Bool :=
  let t := (e.2.type_name).getD ""
  decide (¬ (t = "Catalog" ∨ t = "Pages" ∨ t = "Page" ∨ t = "Outlines" ∨ t = "Outline"))

/-- The Catalog-classified entries of an object list, in encounter order. -/
def catalogEntriesOf (entries : List (Nat × Object)) : List (Nat × Object) :=
  entries.filter (fun e => decide ((e.2.type_name).getD "" = "Catalog"))

/-- The Pages-classified entries that parse as dictionaries, with their ids,
in encounter order. -/
def pagesEntriesOf (entries : List (Nat × Object)) :
    List (Nat × List (String × Object)) :=
  entries.filterMap (fun e =>
    if (e.2.type_name).getD "" = "Pages" then (e.2.as_dict).map (fun d => (e.1, d)) else none)

/-- First-available choice between two optional values. -/
def optOr (a b : Option Object) : Option Object :=
  match a with
  | some v => some v
  | none => b

/-- The value a working pages object holds under a key, when it is a
dictionary. -/
def pagesLookup (po : Option (Nat × Object)) (k : String) : Option Object :=
  (po.bind (fun p => p.2.as_dict)).bind (fun d => dictGet d k)

/-- The shape invariant of the working pages object: a dictionary value with
distinct keys. -/
def pagesShape (po : Option (Nat × Object)) : Prop :=
  ∀ i o, po = some (i, o) → ∃ d, o = Object.Dictionary d ∧ (d.map Prod.fst).Nodup

/-- The bookmark list claim C6 describes, written from the claim's words: one
bookmark per input that contributes at least one page, titled `Page_n` by a
1-based per-contributor counter, coloured blue at level 0, targeting the first
page of that input's traversal. -/
def specBookmarks (docs : List Document) : List Bookmark :=
  (((renumberSeq docs 1).filterMap (fun d => (d.get_pages.head?).map Prod.snd)).enumFrom 1).map
    (fun p => { title := "Page_" ++ toString p.1, color := (0, 0, 1), level := 0, page := p.2 })

/-! Concrete states used by witnesses, computed from the example inputs. -/

/-- The collection state over the single traversal-order example. -/
def stC1 : CollectState := (collectPhase [exDocC1]).getD initCollectState

/-- The collection state over the two-page plus one-page example. -/
def stC4 : CollectState := (collectPhase [exDocTwoPages]).getD initCollectState

/-- The reconciled working Pages value of the `stC4` run. -/
def pobjC4 : Object :=
  (((reconcile stC4.documents_objects stC4.document).pages_object).getD (0, Object.Null)).2

/-- The reconciled working Catalog value of the `stC4` run. -/
def cobjC4 : Object :=
  (((reconcile stC4.documents_objects stC4.document).catalog_object).getD (0, Object.Null)).2

/-- The collection state over the two-contributor example. -/
def stC6 : CollectState :=
  (collectPhase [exDocTwoPages, exDocX 5]).getD initCollectState

/-- The collection state over the no-Pages example. -/
def stC8 : CollectState := (collectPhase [exDocC8]).getD initCollectState

/-- The collection state over the no-Catalog example. -/
def stC9 : CollectState := (collectPhase [exDocC9]).getD initCollectState

/-- The reconciled working Pages value of the `stC9` run. -/
def pobjC9 : Object :=
  (((reconcile stC9.documents_objects stC9.document).pages_object).getD (0, Object.Null)).2

end PdfMerge

namespace PdfMerge

/-! Dictionary lemmas. -/

theorem dictGet_eq_none_of_not_any (d : List (String × Object)) (k : String)
    (h : d.any (fun e => decide (e.1 = k)) = false) : dictGet d k = none := by
  induction d with
  | nil => rfl
  | cons e rest ih =>
    simp only [List.any_cons, Bool.or_eq_false_iff, decide_eq_false_iff_not] at h
    simp only [dictGet, if_neg h.1]
    exact ih h.2

theorem dictGet_map_replace_self (d : List (String × Object)) (k : String) (v : Object)
    (h : d.any (fun e => decide (e.1 = k)) = true) :
    dictGet (d.map (fun e => if e.1 = k then (k, v) else e)) k = some v := by
  induction d with
  | nil => simp at h
  | cons e rest ih =>
    by_cases he : e.1 = k
    · simp [List.map_cons, dictGet, he]
    · simp only [List.any_cons, Bool.or_eq_true, decide_eq_true_eq] at h
      simp only [List.map_cons, if_neg he, dictGet, if_neg he]
      exact ih (by simpa [he] using h)

theorem dictGet_append_single_self (d : List (String × Object)) (k : String) (v : Object)
    (h : dictGet d k = none) : dictGet (d ++ [(k, v)]) k = some v := by
  induction d with
  | nil => simp [dictGet]
  | cons e rest ih =>
    by_cases he : e.1 = k
    · simp [dictGet, he] at h
    · simp only [dictGet, if_neg he] at h
      simp only [List.cons_append, dictGet, if_neg he]
      exact ih h

theorem dictGet_dictSet_self (d : List (String × Object)) (k : String) (v : Object) :
    dictGet (dictSet d k v) k = some v := by
  unfold dictSet
  by_cases h : d.any (fun e => decide (e.1 = k)) = true
  · rw [if_pos h]
    exact dictGet_map_replace_self d k v h
  · rw [if_neg h]
    exact dictGet_append_single_self d k v
      (dictGet_eq_none_of_not_any d k (Bool.eq_false_iff.mpr h))

theorem dictGet_map_replace_ne (d : List (String × Object)) (k k' : String) (v : Object)
    (h : k' ≠ k) :
    dictGet (d.map (fun e => if e.1 = k then (k, v) else e)) k' = dictGet d k' := by
  induction d with
  | nil => rfl
  | cons e rest ih =>
    by_cases he : e.1 = k
    · have hkk' : ¬ (k = k') := fun hh => h hh.symm
      simp [List.map_cons, dictGet, he, hkk', ih]
    · simp only [List.map_cons, if_neg he, dictGet]
      by_cases he' : e.1 = k'
      · simp [he']
      · simp only [if_neg he']
        exact ih

theorem dictGet_append_single_ne (d : List (String × Object)) (k k' : String) (v : Object)
    (h : k' ≠ k) : dictGet (d ++ [(k, v)]) k' = dictGet d k' := by
  induction d with
  | nil =>
    have hkk' : ¬ (k = k') := fun hh => h hh.symm
    simp [dictGet, hkk']
  | cons e rest ih =>
    by_cases he : e.1 = k'
    · simp [dictGet, he]
    · simp only [List.cons_append, dictGet, if_neg he]
      exact ih

theorem dictGet_dictSet_ne (d : List (String × Object)) (k k' : String) (v : Object)
    (h : k' ≠ k) : dictGet (dictSet d k v) k' = dictGet d k' := by
  unfold dictSet
  by_cases ha : d.any (fun e => decide (e.1 = k)) = true
  · rw [if_pos ha]
    exact dictGet_map_replace_ne d k k' v h
  · rw [if_neg ha]
    exact dictGet_append_single_ne d k k' v h

theorem dictGet_eq_none_of_not_mem (d : List (String × Object)) (k : String)
    (h : k ∉ d.map Prod.fst) : dictGet d k = none := by
  induction d with
  | nil => rfl
  | cons e rest ih =>
    simp only [List.map_cons, List.mem_cons, not_or] at h
    simp only [dictGet, if_neg (fun hh : e.1 = k => h.1 hh.symm)]
    exact ih h.2

theorem any_key_iff_mem (d : List (String × Object)) (k : String) :
    d.any (fun e => decide (e.1 = k)) = true ↔ k ∈ d.map Prod.fst := by
  simp [List.any_eq_true, List.mem_map]

theorem keys_map_replace (d : List (String × Object)) (k : String) (v : Object) :
    (d.map (fun e => if e.1 = k then (k, v) else e)).map Prod.fst = d.map Prod.fst := by
  induction d with
  | nil => rfl
  | cons e rest ih =>
    by_cases he : e.1 = k
    · simp [he, ih]
    · simp [he, ih]

theorem nodupKeys_dictSet (d : List (String × Object)) (k : String) (v : Object)
    (h : (d.map Prod.fst).Nodup) : ((dictSet d k v).map Prod.fst).Nodup := by
  unfold dictSet
  by_cases ha : d.any (fun e => decide (e.1 = k)) = true
  · rw [if_pos ha, keys_map_replace]
    exact h
  · rw [if_neg ha]
    have hk : k ∉ d.map Prod.fst := fun hm => ha ((any_key_iff_mem d k).mpr hm)
    simp only [List.map_append, List.map_cons, List.map_nil]
    rw [List.nodup_append]
    refine ⟨h, List.nodup_singleton k, ?_⟩
    intro a ha1 ha2
    have hak : a = k := by simpa using ha2
    exact hk (hak ▸ ha1)

theorem nodupKeys_dictExtend (base top : List (String × Object))
    (hb : (base.map Prod.fst).Nodup) :
    ((dictExtend base top).map Prod.fst).Nodup := by
  induction top generalizing base with
  | nil => exact hb
  | cons e rest ih =>
    simp only [dictExtend, List.foldl_cons]
    exact ih (dictSet base e.1 e.2) (nodupKeys_dictSet base e.1 e.2 hb)

theorem dictGet_dictExtend (base top : List (String × Object)) (k : String)
    (hnd : (top.map Prod.fst).Nodup) :
    dictGet (dictExtend base top) k = optOr (dictGet top k) (dictGet base k) := by
  induction top generalizing base with
  | nil => simp [dictExtend, dictGet, optOr]
  | cons e rest ih =>
    simp only [List.map_cons, List.nodup_cons] at hnd
    simp only [dictExtend, List.foldl_cons] at ih ⊢
    rw [ih (dictSet base e.1 e.2) hnd.2]
    by_cases hk : e.1 = k
    · have hkr : dictGet rest k = none :=
        dictGet_eq_none_of_not_mem rest k (hk ▸ hnd.1)
      simp only [dictGet, if_pos hk, hkr, optOr]
      rw [hk, dictGet_dictSet_self]
    · simp only [dictGet, if_neg hk]
      rw [dictGet_dictSet_ne base e.1 k e.2 (fun hh => hk hh.symm)]

/-! Ordered-map lemmas. -/

theorem btreeLookup_insert_self (m : List (Nat × Object)) (k : Nat) (v : Object) :
    btreeLookup (btreeInsert m k v) k = some v := by
  induction m with
  | nil => simp [btreeInsert, btreeLookup]
  | cons e rest ih =>
    obtain ⟨a, w⟩ := e
    simp only [btreeInsert]
    by_cases h1 : k < a
    · simp [h1, btreeLookup]
    · by_cases h2 : k = a
      · simp [h1, h2, btreeLookup]
      · have h3 : ¬ (a = k) := fun hh => h2 hh.symm
        simp only [if_neg h1, if_neg h2, btreeLookup, if_neg h3]
        exact ih

theorem btreeLookup_insert_ne (m : List (Nat × Object)) (k k' : Nat) (v : Object)
    (h : k' ≠ k) : btreeLookup (btreeInsert m k v) k' = btreeLookup m k' := by
  have hkk' : ¬ (k = k') := fun hh => h hh.symm
  induction m with
  | nil => simp [btreeInsert, btreeLookup, hkk']
  | cons e rest ih =>
    obtain ⟨a, w⟩ := e
    simp only [btreeInsert]
    by_cases h1 : k < a
    · simp [h1, btreeLookup, hkk']
    · by_cases h2 : k = a
      · have ha : ¬ (a = k') := fun hh => hkk' (h2.trans hh)
        simp [h1, h2, btreeLookup, hkk', ha]
      · simp only [if_neg h1, if_neg h2, btreeLookup]
        by_cases h3 : a = k'
        · simp [h3]
        · simp only [if_neg h3]
          exact ih

theorem mem_keys_btreeInsert (m : List (Nat × Object)) (k : Nat) (v : Object)
    (a : Nat) (h : a ∈ (btreeInsert m k v).map Prod.fst) :
    a = k ∨ a ∈ m.map Prod.fst := by
  induction m with
  | nil => simpa [btreeInsert] using h
  | cons e rest ih =>
    obtain ⟨b, w⟩ := e
    simp only [btreeInsert] at h
    by_cases h1 : k < b
    · simp only [if_pos h1, List.map_cons, List.mem_cons] at h
      rcases h with h | h | h
      · exact Or.inl h
      · exact Or.inr (by simp [h])
      · exact Or.inr (by simp [h])
    · by_cases h2 : k = b
      · simp only [if_neg h1, if_pos h2, List.map_cons, List.mem_cons] at h
        rcases h with h | h
        · exact Or.inl h
        · exact Or.inr (by simp [h])
      · simp only [if_neg h1, if_neg h2, List.map_cons, List.mem_cons] at h
        rcases h with h | h
        · exact Or.inr (by simp [h])
        · rcases ih h with h' | h'
          · exact Or.inl h'
          · exact Or.inr (by simp [h'])

theorem keysSorted_btreeInsert (m : List (Nat × Object)) (k : Nat) (v : Object)
    (h : keysSorted m) : keysSorted (btreeInsert m k v) := by
  induction m with
  | nil => simp [btreeInsert, keysSorted]
  | cons e rest ih =>
    obtain ⟨a, w⟩ := e
    simp only [keysSorted, List.map_cons, List.pairwise_cons] at h
    simp only [btreeInsert]
    by_cases h1 : k < a
    · rw [if_pos h1]
      simp only [keysSorted, List.map_cons, List.pairwise_cons]
      refine ⟨?_, h.1, h.2⟩
      intro b hb
      rcases List.mem_cons.mp hb with hb | hb
      · omega
      · have := h.1 b hb
        omega
    · by_cases h2 : k = a
      · rw [if_neg h1, if_pos h2]
        simp only [keysSorted, List.map_cons, List.pairwise_cons]
        exact ⟨fun b hb => h2 ▸ h.1 b hb, h.2⟩
      · rw [if_neg h1, if_neg h2]
        simp only [keysSorted, List.map_cons, List.pairwise_cons]
        refine ⟨?_, ih h.2⟩
        intro b hb
        rcases mem_keys_btreeInsert rest k v b hb with hb' | hb'
        · omega
        · exact h.1 b hb'

theorem btreeInsert_append_of_lt (m : List (Nat × Object)) (k : Nat) (v : Object)
    (h : ∀ a ∈ m.map Prod.fst, a < k) : btreeInsert m k v = m ++ [(k, v)] := by
  induction m with
  | nil => rfl
  | cons e rest ih =>
    obtain ⟨a, w⟩ := e
    have ha : a < k := h a (by simp)
    have h1 : ¬ k < a := by omega
    have h2 : ¬ k = a := by omega
    simp only [btreeInsert, if_neg h1, if_neg h2, List.cons_append]
    rw [ih (fun b hb => h b (by simp [hb]))]

theorem keysSorted_foldl_insert (l m : List (Nat × Object)) (h : keysSorted m) :
    keysSorted (l.foldl (fun acc e => btreeInsert acc e.1 e.2) m) := by
  induction l generalizing m with
  | nil => exact h
  | cons e rest ih =>
    simp only [List.foldl_cons]
    exact ih (btreeInsert m e.1 e.2) (keysSorted_btreeInsert m e.1 e.2 h)

/-! Classification-step component lemmas. -/

theorem classifyStep_catalog_object (st : ReconcileState) (e : Nat × Object) :
    (classifyStep st e).catalog_object =
      if (e.2.type_name).getD "" = "Catalog" then
        some ((match st.catalog_object with | some p => p.1 | none => e.1), e.2)
      else st.catalog_object := by
  by_cases h1 : (e.2.type_name).getD "" = "Catalog"
  · simp [classifyStep, h1]
  · simp only [classifyStep, if_neg h1]
    by_cases h2 : (e.2.type_name).getD "" = "Pages"
    · simp only [if_pos h2]
      cases hd : e.2.as_dict <;> rfl
    · simp only [if_neg h2]
      by_cases h3 : (e.2.type_name).getD "" = "Page"
      · simp [h3]
      · simp only [if_neg h3]
        by_cases h4 : (e.2.type_name).getD "" = "Outlines"
        · simp [h4]
        · simp only [if_neg h4]
          by_cases h5 : (e.2.type_name).getD "" = "Outline"
          · simp [h5]
          · simp [if_neg h5]

theorem classifyStep_document (st : ReconcileState) (e : Nat × Object) :
    (classifyStep st e).document =
      if isOtherEntry e then
        { st.document with objects := btreeInsert st.document.objects e.1 e.2 }
      else st.document := by
  by_cases h1 : (e.2.type_name).getD "" = "Catalog"
  · simp [classifyStep, isOtherEntry, h1]
  · by_cases h2 : (e.2.type_name).getD "" = "Pages"
    · simp only [classifyStep, isOtherEntry, if_neg h1, if_pos h2]
      cases hd : e.2.as_dict <;> simp [h2]
    · by_cases h3 : (e.2.type_name).getD "" = "Page"
      · simp [classifyStep, isOtherEntry, h1, h2, h3]
      · by_cases h4 : (e.2.type_name).getD "" = "Outlines"
        · simp [classifyStep, isOtherEntry, h1, h2, h3, h4]
        · by_cases h5 : (e.2.type_name).getD "" = "Outline"
          · simp [classifyStep, isOtherEntry, h1, h2, h3, h4, h5]
          · simp [classifyStep, isOtherEntry, h1, h2, h3, h4, h5]

theorem optOr_none_left (b : Option Object) : optOr none b = b := rfl

theorem optOr_none_right (a : Option Object) : optOr a none = a := by
  cases a <;> rfl

theorem optOr_assoc (a b c : Option Object) :
    optOr (optOr a b) c = optOr a (optOr b c) := by
  cases a <;> rfl

theorem head?_filterMap_cons {α : Type} (f : α → Option Object) (x : α) (l : List α) :
    ((x :: l).filterMap f).head? = optOr (f x) ((l.filterMap f).head?) := by
  rw [List.filterMap_cons]
  cases f x <;> simp [optOr]

theorem foldl_classify_catalog (es : List (Nat × Object)) (st : ReconcileState) :
    (es.foldl classifyStep st).catalog_object =
      (catalogEntriesOf es).foldl
        (fun a e => some ((match a with | some p => p.1 | none => e.1), e.2))
        st.catalog_object := by
  induction es generalizing st with
  | nil => rfl
  | cons e rest ih =>
    rw [List.foldl_cons, ih (classifyStep st e), classifyStep_catalog_object]
    unfold catalogEntriesOf
    rw [List.filter_cons]
    by_cases h : (e.2.type_name).getD "" = "Catalog"
    · simp [h, catalogEntriesOf]
    · simp [h, catalogEntriesOf]

theorem foldl_classify_trailer (es : List (Nat × Object)) (st : ReconcileState) :
    (es.foldl classifyStep st).document.trailer = st.document.trailer := by
  induction es generalizing st with
  | nil => rfl
  | cons e rest ih =>
    rw [List.foldl_cons, ih (classifyStep st e), classifyStep_document]
    by_cases h : isOtherEntry e = true <;> simp [h]

theorem foldl_classify_objects (es : List (Nat × Object)) (st : ReconcileState)
    (h : List.Pairwise (· < ·)
      (st.document.objects.map Prod.fst ++ es.map Prod.fst)) :
    (es.foldl classifyStep st).document.objects =
      st.document.objects ++ es.filter isOtherEntry := by
  induction es generalizing st with
  | nil => simp
  | cons e rest ih =>
    rw [List.foldl_cons, List.filter_cons]
    have hlt : ∀ a ∈ st.document.objects.map Prod.fst, a < e.1 := by
      intro a ha
      have := (List.pairwise_append.mp h).2.2 a ha e.1 (by simp)
      exact this
    by_cases ho : isOtherEntry e = true
    · have hdoc : (classifyStep st e).document =
          { st.document with objects := btreeInsert st.document.objects e.1 e.2 } := by
        rw [classifyStep_document, if_pos ho]
      have hins : btreeInsert st.document.objects e.1 e.2 =
          st.document.objects ++ [(e.1, e.2)] :=
        btreeInsert_append_of_lt _ _ _ hlt
      have hpair : List.Pairwise (· < ·)
          ((classifyStep st e).document.objects.map Prod.fst ++ rest.map Prod.fst) := by
        rw [hdoc]
        simp only [hins, List.map_append, List.map_cons, List.map_nil]
        have : st.document.objects.map Prod.fst ++ [e.1] ++ rest.map Prod.fst =
            st.document.objects.map Prod.fst ++ e.1 :: rest.map Prod.fst := by
          simp [List.append_assoc]
        rw [this]
        simpa using h
      rw [ih (classifyStep st e) hpair, hdoc]
      simp [hins, ho]
    · have hdoc : (classifyStep st e).document = st.document := by
        rw [classifyStep_document, if_neg ho]
      have hpair : List.Pairwise (· < ·)
          ((classifyStep st e).document.objects.map Prod.fst ++ rest.map Prod.fst) := by
        rw [hdoc]
        refine List.Pairwise.sublist ?_ h
        exact List.Sublist.append_left (List.sublist_cons_self _ _) _
      rw [ih (classifyStep st e) hpair, hdoc]
      simp [ho]

theorem classifyStep_pages_object (st : ReconcileState) (e : Nat × Object) :
    (classifyStep st e).pages_object =
      if (e.2.type_name).getD "" = "Pages" then
        match e.2.as_dict with
        | some d =>
          some ((match st.pages_object with | some p => p.1 | none => e.1),
            Object.Dictionary
              (match st.pages_object with
               | some p =>
                 match p.2.as_dict with
                 | some old => dictExtend d old
                 | none => d
               | none => d))
        | none => st.pages_object
      else st.pages_object := by
  by_cases h1 : (e.2.type_name).getD "" = "Catalog"
  · have h2 : ¬ ((e.2.type_name).getD "" = "Pages") := by simp [h1]
    simp [classifyStep, h1, h2]
  · simp only [classifyStep, if_neg h1]
    by_cases h2 : (e.2.type_name).getD "" = "Pages"
    · simp only [if_pos h2]
      cases hd : e.2.as_dict <;> simp
    · simp only [if_neg h2]
      by_cases h3 : (e.2.type_name).getD "" = "Page"
      · simp [h3]
      · simp only [if_neg h3]
        by_cases h4 : (e.2.type_name).getD "" = "Outlines"
        · simp [h4]
        · simp only [if_neg h4]
          by_cases h5 : (e.2.type_name).getD "" = "Outline"
          · simp [h5]
          · simp [if_neg h5]

theorem foldl_classify_pages_lookup (es : List (Nat × Object)) (st : ReconcileState)
    (k : String)
    (hes : ∀ pr ∈ pagesEntriesOf es, (pr.2.map Prod.fst).Nodup)
    (hst : pagesShape st.pages_object) :
    pagesLookup (es.foldl classifyStep st).pages_object k =
      optOr (pagesLookup st.pages_object k)
        (((pagesEntriesOf es).filterMap (fun pr => dictGet pr.2 k)).head?) := by
  induction es generalizing st with
  | nil =>
    simp only [List.foldl_nil, pagesEntriesOf, List.filterMap_nil, List.head?_nil]
    rw [optOr_none_right]
  | cons e rest ih =>
    rw [List.foldl_cons]
    by_cases hp : (e.2.type_name).getD "" = "Pages"
    · cases hd : e.2.as_dict with
      | none =>
        have hpe : (classifyStep st e).pages_object = st.pages_object := by
          rw [classifyStep_pages_object, if_pos hp, hd]
        have hdrop : pagesEntriesOf (e :: rest) = pagesEntriesOf rest := by
          unfold pagesEntriesOf
          rw [List.filterMap_cons]
          simp [hp, hd]
        have hrest : ∀ pr ∈ pagesEntriesOf rest, (pr.2.map Prod.fst).Nodup := by
          intro pr hpr
          apply hes
          rw [hdrop]
          exact hpr
        rw [ih (classifyStep st e) hrest (by rw [hpe]; exact hst), hpe, hdrop]
      | some d =>
        have hdnodup : (d.map Prod.fst).Nodup := by
          apply hes (e.1, d)
          unfold pagesEntriesOf
          rw [List.filterMap_cons]
          simp [hp, hd]
        have hcons : pagesEntriesOf (e :: rest) = (e.1, d) :: pagesEntriesOf rest := by
          unfold pagesEntriesOf
          rw [List.filterMap_cons]
          simp [hp, hd]
        have hrest : ∀ pr ∈ pagesEntriesOf rest, (pr.2.map Prod.fst).Nodup := by
          intro pr hpr
          apply hes
          rw [hcons]
          exact List.mem_cons_of_mem _ hpr
        cases hpo : st.pages_object with
        | none =>
          have hpe : (classifyStep st e).pages_object =
              some (e.1, Object.Dictionary d) := by
            rw [classifyStep_pages_object, if_pos hp, hd, hpo]
          have hshape : pagesShape (classifyStep st e).pages_object := by
            rw [hpe]
            intro i o hio
            cases hio
            exact ⟨d, rfl, hdnodup⟩
          rw [ih (classifyStep st e) hrest hshape, hpe, hcons,
            head?_filterMap_cons]
          simp only [pagesLookup, hpo, Option.bind_none, Option.none_bind]
          simp only [Option.some_bind, Object.as_dict, Option.bind_some]
          rw [optOr_none_left]
        | some p =>
          obtain ⟨old, hpold, holdnodup⟩ := hst p.1 p.2 (by rw [hpo])
          have hpe : (classifyStep st e).pages_object =
              some (p.1, Object.Dictionary (dictExtend d old)) := by
            rw [classifyStep_pages_object, if_pos hp, hd, hpo]
            simp [hpold, Object.as_dict]
          have hshape : pagesShape (classifyStep st e).pages_object := by
            rw [hpe]
            intro i o hio
            cases hio
            exact ⟨dictExtend d old, rfl, nodupKeys_dictExtend d old hdnodup⟩
          rw [ih (classifyStep st e) hrest hshape, hpe, hcons,
            head?_filterMap_cons]
          simp only [pagesLookup, hpo, Option.some_bind, Object.as_dict,
            Option.bind_some, hpold]
          rw [dictGet_dictExtend d old k holdnodup, optOr_assoc]
    · have hpe : (classifyStep st e).pages_object = st.pages_object := by
        rw [classifyStep_pages_object, if_neg hp]
      have hdrop : pagesEntriesOf (e :: rest) = pagesEntriesOf rest := by
        unfold pagesEntriesOf
        rw [List.filterMap_cons]
        simp [hp]
      have hrest : ∀ pr ∈ pagesEntriesOf rest, (pr.2.map Prod.fst).Nodup := by
        intro pr hpr
        apply hes
        rw [hdrop]
        exact hpr
      rw [ih (classifyStep st e) hrest (by rw [hpe]; exact hst), hpe, hdrop]

/-! Collection-phase lemmas. -/

theorem lookupPages_none_iff (doc : Document) (ps : List (Nat × Nat)) :
    lookupPages doc ps = none ↔ ∃ p ∈ ps, doc.get_object p.2 = none := by
  induction ps with
  | nil => simp [lookupPages]
  | cons p rest ih =>
    simp only [lookupPages]
    cases hg : doc.get_object p.2 with
    | none =>
      simp only []
      constructor
      · intro _
        exact ⟨p, by simp, hg⟩
      · intro _
        trivial
    | some o =>
      cases hl : lookupPages doc rest with
      | none =>
        simp only []
        constructor
        · intro _
          obtain ⟨q, hq, hqn⟩ := ih.mp hl
          exact ⟨q, by simp [hq], hqn⟩
        · intro _
          trivial
      | some es =>
        simp only []
        constructor
        · intro hcontra
          cases hcontra
        · rintro ⟨q, hq, hqn⟩
          rcases List.mem_cons.mp hq with hq | hq
          · rw [hq] at hqn
            rw [hqn] at hg
            cases hg
          · have : lookupPages doc rest = none := ih.mpr ⟨q, hq, hqn⟩
            rw [this] at hl
            cases hl

theorem collectStep_none_iff (st : CollectState) (d : Document) :
    collectStep st d = none ↔
      ∃ p ∈ (d.renumber_objects_with st.max_id).get_pages,
        (d.renumber_objects_with st.max_id).get_object p.2 = none := by
  rw [← lookupPages_none_iff]
  unfold collectStep
  cases hl : lookupPages (d.renumber_objects_with st.max_id)
      ((d.renumber_objects_with st.max_id).get_pages) with
  | none => simp [hl]
  | some entries => simp [hl]

theorem collectStep_some_elim (st : CollectState) (d : Document) (st1 : CollectState)
    (h : collectStep st d = some st1) :
    st1.max_id = (d.renumber_objects_with st.max_id).max_id + 1 ∧
    (∃ entries, lookupPages (d.renumber_objects_with st.max_id)
        ((d.renumber_objects_with st.max_id).get_pages) = some entries ∧
      st1.documents_pages =
        entries.foldl (fun m e => btreeInsert m e.1 e.2) st.documents_pages) ∧
    st1.documents_objects = (d.renumber_objects_with st.max_id).objects.foldl
      (fun m e => btreeInsert m e.1 e.2) st.documents_objects ∧
    st1.document.objects = st.document.objects ∧
    st1.document.trailer = st.document.trailer ∧
    ((((d.renumber_objects_with st.max_id).get_pages).head? = none →
        st1.document.bookmarks = st.document.bookmarks ∧ st1.pagenum = st.pagenum) ∧
     (∀ p, ((d.renumber_objects_with st.max_id).get_pages).head? = some p →
        st1.document.bookmarks = st.document.bookmarks ++
          [{ title := "Page_" ++ toString st.pagenum, color := (0, 0, 1), level := 0,
             page := p.2 }] ∧
        st1.pagenum = st.pagenum + 1)) := by
  unfold collectStep at h
  cases hl : lookupPages (d.renumber_objects_with st.max_id)
      ((d.renumber_objects_with st.max_id).get_pages) with
  | none => simp [hl] at h
  | some entries =>
    simp only [hl] at h
    cases hh : ((d.renumber_objects_with st.max_id).get_pages).head? with
    | none =>
      simp only [hh] at h
      cases h
      refine ⟨rfl, ⟨entries, rfl, rfl⟩, rfl, rfl, rfl, ⟨fun _ => ⟨rfl, rfl⟩, ?_⟩⟩
      intro p hp
      cases hp
    | some p =>
      simp only [hh] at h
      cases h
      refine ⟨rfl, ⟨entries, rfl, rfl⟩, rfl, ?_, ?_, ⟨?_, ?_⟩⟩
      · simp [Document.add_bookmark]
      · simp [Document.add_bookmark]
      · intro hnone
        cases hnone
      · intro q hq
        cases hq
        exact ⟨by simp [Document.add_bookmark], rfl⟩

theorem collectAux_invariants (docs : List Document) (st st' : CollectState)
    (h : collectPhaseAux st docs = some st') :
    st'.document.objects = st.document.objects ∧
    st'.document.trailer = st.document.trailer ∧
    (keysSorted st.documents_pages → keysSorted st'.documents_pages) ∧
    (keysSorted st.documents_objects → keysSorted st'.documents_objects) := by
  induction docs generalizing st with
  | nil =>
    simp only [collectPhaseAux] at h
    cases h
    exact ⟨rfl, rfl, fun hh => hh, fun hh => hh⟩
  | cons d rest ih =>
    simp only [collectPhaseAux] at h
    cases hs : collectStep st d with
    | none => rw [hs] at h; cases h
    | some st1 =>
      rw [hs] at h
      obtain ⟨_, ⟨entries, _, hdp⟩, hdo, hobj, htr, _⟩ := collectStep_some_elim st d st1 hs
      obtain ⟨io, it, ip, iq⟩ := ih st1 h
      refine ⟨io.trans hobj, it.trans htr, ?_, ?_⟩
      · intro hsorted
        apply ip
        rw [hdp]
        exact keysSorted_foldl_insert entries st.documents_pages hsorted
      · intro hsorted
        apply iq
        rw [hdo]
        exact keysSorted_foldl_insert _ st.documents_objects hsorted

theorem collectAux_none_iff (docs : List Document) (st : CollectState) :
    collectPhaseAux st docs = none ↔
      ∃ d ∈ renumberSeq docs st.max_id, ∃ p ∈ d.get_pages, d.get_object p.2 = none := by
  induction docs generalizing st with
  | nil => simp [collectPhaseAux, renumberSeq]
  | cons d rest ih =>
    simp only [collectPhaseAux]
    cases hs : collectStep st d with
    | none =>
      simp only []
      constructor
      · intro _
        obtain ⟨p, hp, hpn⟩ := (collectStep_none_iff st d).mp hs
        refine ⟨d.renumber_objects_with st.max_id, ?_, p, hp, hpn⟩
        unfold renumberSeq
        exact List.mem_cons_self _ _
      · intro _
        trivial
    | some st1 =>
      simp only []
      obtain ⟨hmax, _, _, _, _, _⟩ := collectStep_some_elim st d st1 hs
      have hnofail : ¬ ∃ p ∈ (d.renumber_objects_with st.max_id).get_pages,
          (d.renumber_objects_with st.max_id).get_object p.2 = none := by
        intro hcontra
        have := (collectStep_none_iff st d).mpr hcontra
        rw [this] at hs
        cases hs
      rw [ih st1, hmax]
      constructor
      · rintro ⟨dd, hdd, hfail⟩
        exact ⟨dd, by unfold renumberSeq; exact List.mem_cons_of_mem _ hdd, hfail⟩
      · rintro ⟨dd, hdd, hfail⟩
        unfold renumberSeq at hdd
        rcases List.mem_cons.mp hdd with hdd | hdd
        · exact absurd (hdd ▸ hfail) hnofail
        · exact ⟨dd, hdd, hfail⟩

theorem collectAux_bookmarks (docs : List Document) (st st' : CollectState)
    (h : collectPhaseAux st docs = some st') :
    st'.document.bookmarks = st.document.bookmarks ++
      ((((renumberSeq docs st.max_id).filterMap
          (fun d => (d.get_pages.head?).map Prod.snd)).enumFrom st.pagenum).map
        (fun p => { title := "Page_" ++ toString p.1, color := (0, 0, 1), level := 0,
                    page := p.2 })) := by
  induction docs generalizing st with
  | nil =>
    simp only [collectPhaseAux] at h
    cases h
    simp [renumberSeq]
  | cons d rest ih =>
    simp only [collectPhaseAux] at h
    cases hs : collectStep st d with
    | none => rw [hs] at h; cases h
    | some st1 =>
      rw [hs] at h
      obtain ⟨hmax, _, _, _, _, hbnone, hbsome⟩ := collectStep_some_elim st d st1 hs
      unfold renumberSeq
      cases hh : ((d.renumber_objects_with st.max_id).get_pages).head? with
      | none =>
        obtain ⟨hbk, hpn⟩ := hbnone hh
        have hpages : (d.renumber_objects_with st.max_id).get_pages = [] := by
          cases hph : (d.renumber_objects_with st.max_id).get_pages with
          | nil => rfl
          | cons q qs => rw [hph] at hh; cases hh
        rw [ih st1 h, hbk, hmax, hpn]
        simp [List.filterMap_cons, hpages]
      | some p =>
        obtain ⟨hbk, hpn⟩ := hbsome p hh
        rw [ih st1 h, hbk, hmax, hpn]
        rw [List.filterMap_cons]
        simp only [hh, Option.map_some]
        rw [List.append_assoc]
        congr 1

/-! Renumbering lemmas. -/

theorem renumEntries_keys (σ : List (Nat × Nat)) (start : Nat) (l : List (Nat × Object)) :
    (renumEntries σ start l).map Prod.fst = List.range' start l.length := by
  induction l generalizing start with
  | nil => rfl
  | cons e rest ih =>
    simp only [renumEntries, List.map_cons, List.length_cons, List.range'_succ _ _ 1]
    rw [ih (start + 1)]

theorem renumber_objectIds (doc : Document) (start : Nat) :
    (doc.renumber_objects_with start).objectIds = List.range' start doc.objects.length := by
  unfold Document.renumber_objects_with Document.objectIds
  simp only []
  exact renumEntries_keys _ start doc.objects

theorem renumberSeq_lower_bound (docs : List Document) (start : Nat) :
    ∀ d' ∈ renumberSeq docs start, ∀ id ∈ d'.objectIds, start ≤ id := by
  induction docs generalizing start with
  | nil =>
    intro d' hd'
    simp [renumberSeq] at hd'
  | cons d rest ih =>
    intro d' hd' id hid
    unfold renumberSeq at hd'
    rcases List.mem_cons.mp hd' with hd' | hd'
    · rw [hd', renumber_objectIds] at hid
      exact (List.mem_range'_1.mp hid).1
    · have hlow := ih ((d.renumber_objects_with start).max_id + 1) d' hd' id hid
      have hmax : (d.renumber_objects_with start).max_id =
          start + d.objects.length - 1 := rfl
      omega

theorem renumberSeq_pairwise_disjoint (docs : List Document) (start : Nat) :
    List.Pairwise (fun d1 d2 => d1.objectIds.Disjoint d2.objectIds)
      (renumberSeq docs start) := by
  induction docs generalizing start with
  | nil => simp [renumberSeq]
  | cons d rest ih =>
    unfold renumberSeq
    refine List.Pairwise.cons ?_ (ih _)
    intro d2 hd2
    intro id hid1 hid2
    rw [renumber_objectIds] at hid1
    have h1 := List.mem_range'_1.mp hid1
    have h2 := renumberSeq_lower_bound rest ((d.renumber_objects_with start).max_id + 1)
      d2 hd2 id hid2
    have hmax : (d.renumber_objects_with start).max_id =
        start + d.objects.length - 1 := rfl
    omega

/-! Page-loop and merge-unfolding lemmas. -/

theorem pagesLoopDoc_cons (doc : Document) (f : Nat × Object)
    (rest : List (Nat × Object)) (pid : Nat) :
    pagesLoopDoc doc (f :: rest) pid =
      pagesLoopDoc
        (match f.2.as_dict with
         | some pd =>
           { doc with objects := btreeInsert doc.objects f.1 (Object.Dictionary (dictSet pd "Parent" (Object.Reference pid))) }
         | none => doc) rest pid := by
  unfold pagesLoopDoc
  rw [List.foldl_cons]

theorem pagesLoopDoc_trailer (dp : List (Nat × Object)) (doc : Document) (pid : Nat) :
    (pagesLoopDoc doc dp pid).trailer = doc.trailer := by
  induction dp generalizing doc with
  | nil => rfl
  | cons f rest ih =>
    rw [pagesLoopDoc_cons]
    cases f.2.as_dict <;> simp [ih]

theorem pagesLoopDoc_lookup_preserve (dp : List (Nat × Object)) (doc : Document)
    (pid k : Nat) (hk : k ∉ dp.map Prod.fst) :
    btreeLookup (pagesLoopDoc doc dp pid).objects k = btreeLookup doc.objects k := by
  induction dp generalizing doc with
  | nil => rfl
  | cons f rest ih =>
    simp only [List.map_cons, List.mem_cons, not_or] at hk
    rw [pagesLoopDoc_cons]
    cases hd : f.2.as_dict with
    | none => exact ih doc hk.2
    | some pd =>
      rw [ih _ hk.2]
      exact btreeLookup_insert_ne doc.objects f.1 k _ hk.1

theorem pagesLoopDoc_lookup_mem (dp : List (Nat × Object)) (doc : Document) (pid : Nat)
    (hnd : (dp.map Prod.fst).Nodup) (e : Nat × Object) (he : e ∈ dp)
    (d : List (String × Object)) (hd : e.2.as_dict = some d) :
    btreeLookup (pagesLoopDoc doc dp pid).objects e.1 =
      some (Object.Dictionary (dictSet d "Parent" (Object.Reference pid))) := by
  induction dp generalizing doc with
  | nil => cases he
  | cons f rest ih =>
    simp only [List.map_cons, List.nodup_cons] at hnd
    rcases List.mem_cons.mp he with hef | hef
    · subst hef
      rw [pagesLoopDoc_cons, hd]
      rw [pagesLoopDoc_lookup_preserve rest _ pid e.1 hnd.1]
      exact btreeLookup_insert_self doc.objects e.1 _
    · rw [pagesLoopDoc_cons]
      exact ih _ hnd.2 hef

theorem merge_isSome_of_collect_some (docs : List Document) (st : CollectState)
    (h : collectPhase docs = some st) : (merge_documents docs).isSome = true := by
  unfold merge_documents
  rw [h]
  cases hp : (reconcile st.documents_objects st.document).pages_object with
  | none => simp [hp]
  | some p =>
    cases hc : (reconcile st.documents_objects st.document).catalog_object with
    | none => simp [hp, hc]
    | some c =>
      cases hpd : p.2.as_dict <;> cases hcd : c.2.as_dict <;> simp [hp, hc, hpd, hcd]

theorem merge_none_iff_collect_none (docs : List Document) :
    merge_documents docs = none ↔ collectPhase docs = none := by
  constructor
  · intro h
    cases hc : collectPhase docs with
    | none => rfl
    | some st =>
      have := merge_isSome_of_collect_some docs st hc
      rw [h] at this
      cases this
  · intro h
    unfold merge_documents
    rw [h]

/-! Catalog accumulator lemmas. -/

theorem catFold_some (ces : List (Nat × Object)) (p : Nat × Object) :
    ces.foldl (fun a e => some ((match a with | some q => q.1 | none => e.1), e.2))
        (some p) =
      some (p.1, (ces.getLast?.getD p).2) := by
  induction ces generalizing p with
  | nil => rfl
  | cons c cs ih =>
    rw [List.foldl_cons, ih (p.1, c.2)]
    cases cs with
    | nil => rfl
    | cons c2 cs2 =>
      rw [List.getLast?_cons_cons]
      cases hL : (c2 :: cs2).getLast? with
      | none =>
        have : (c2 :: cs2) ≠ [] := by simp
        rw [← List.getLast?_isSome] at this
        rw [hL] at this
        cases this
      | some L => rfl

theorem catFold_none (ces : List (Nat × Object)) :
    ces.foldl (fun a e => some ((match a with | some q => q.1 | none => e.1), e.2))
        none =
      ces.head?.bind (fun h => ces.getLast?.map (fun l => (h.1, l.2))) := by
  cases ces with
  | nil => rfl
  | cons c cs =>
    rw [List.foldl_cons, catFold_some cs (c.1, c.2)]
    cases cs with
    | nil => rfl
    | cons c2 cs2 =>
      rw [List.getLast?_cons_cons]
      simp only [List.head?_cons, Option.some_bind]
      cases hL : (c2 :: cs2).getLast? with
      | none =>
        have : (c2 :: cs2) ≠ [] := by simp
        rw [← List.getLast?_isSome] at this
        rw [hL] at this
        cases this
      | some L => rfl

end PdfMerge

namespace PdfMerge

set_option maxHeartbeats 4000000 in
/-- Claim C1, counterexample: for the single input `exDocC1` the pages are
collected in the document's page-tree order [4, 3], but the final Pages
object's Kids list holds them in ascending object-id order [3, 4], not in
first-seen traversal order as the claim states. -/
theorem C1_counterexample :
    pageIdsOf (exDocC1.renumber_objects_with 1) = [4, 3] ∧
    (mergedPagesDict [exDocC1]).bind kidsIdsOf = some [3, 4] ∧
    ¬ ([3, 4] : List Nat) = [4, 3] := ⟨rfl, rfl, by decide⟩

set_option maxHeartbeats 4000000 in
/-- Claim C2, counterexample: merging two one-page documents whose catalogs
carry X = 1 and X = 2, the reconciliation keeps the first catalog's id (1) but
the later catalog's value (X = 2) as the working Catalog, so the first-seen
Catalog's value is not the one kept, contrary to the claim. -/
theorem C2_counterexample :
    (collectPhase [exDocX 1, exDocX 2]).map (fun st =>
      (reconcile st.documents_objects st.document).catalog_object.map (fun c =>
        (c.1, (c.2.as_dict).bind (fun d => dictGetInt d "X")))) =
      some (some (1, some 2)) ∧
    ¬ ((2 : Int) = 1) := ⟨rfl, by decide⟩

set_option maxHeartbeats 4000000 in
/-- Claim C7, failing input: for `exDocC7` (an Outlines object precedes the
catalog in the store, so the final dense renumbering moves the catalog away
from its recorded id) the merge produces a bookmark, yet the final catalog has
no Outlines field; the outline root reference is written onto the object that
now occupies the catalog's stale id, the Pages object. -/
theorem C7_bug :
    (merge_documents [exDocC7]).map (fun d => d.bookmarks.length) = some 1 ∧
    (mergedCatalogDict [exDocC7]).map (fun d => (dictGet d "Outlines").isSome) = some false ∧
    ((merge_documents [exDocC7]).bind (fun o => o.get_object 2)).bind (fun o => o.type_name) =
      some "Pages" ∧
    (((merge_documents [exDocC7]).bind (fun o => o.get_object 2)).bind Object.as_dict).bind
      (fun d => dictGetRefId d "Outlines") = some 5 := ⟨rfl, rfl, rfl, rfl⟩

set_option maxHeartbeats 4000000 in
/-- Claim C9, counterexample: for `exDocC9` (a valid page tree, no object
typed Catalog) the merge returns a partial store in which the collected page
has been reparented under the authoritative Pages id 2, but the Pages object
itself is absent from the store: its Kids and Count were never rewritten,
contrary to the claim that the page tree is fully rebuilt before the missing
catalog is discovered. -/
theorem C9_counterexample :
    (merge_documents [exDocC9]).isSome = true ∧
    ((merge_documents [exDocC9]).bind (fun o => o.get_object 2)).isSome = false ∧
    ((((merge_documents [exDocC9]).bind (fun o => o.get_object 3)).bind Object.as_dict).bind
      (fun d => dictGetRefId d "Parent")) = some 2 ∧
    (merge_documents [exDocC9]).map (fun d => (dictGet d.trailer "Root").isSome) =
      some false := ⟨rfl, rfl, rfl, rfl⟩

/-- Claim C1, amended: the merge collects each document's pages via its
page-tree traversal, but accumulates them in a map keyed by object id, so the
collected pages are in strictly ascending object-id order and the rebuilt
Pages object's Kids list holds exactly those ids, in that id order (not in
first-seen traversal order). -/
theorem C1_amended_kids_in_id_order (docs : List Document) (st : CollectState)
    (h : collectPhase docs = some st) :
    keysSorted st.documents_pages ∧
    ∀ pd, dictGet (rebuildPagesDict pd st.documents_pages) "Kids" =
      some (Object.Array (st.documents_pages.map (fun e => Object.Reference e.1))) := by
  constructor
  · unfold collectPhase at h
    exact (collectAux_invariants docs initCollectState st h).2.2.1
      (by simp [initCollectState, keysSorted])
  · intro pd
    unfold rebuildPagesDict
    exact dictGet_dictSet_self _ _ _

set_option maxHeartbeats 1000000 in
/-- Witness for the amended claim C1 at the concrete input `exDocC1`. -/
theorem C1_amended_witness :
    keysSorted stC1.documents_pages ∧
    dictGet (rebuildPagesDict [] stC1.documents_pages) "Kids" =
      some (Object.Array (stC1.documents_pages.map (fun e => Object.Reference e.1))) :=
  ⟨(C1_amended_kids_in_id_order [exDocC1] stC1 rfl).1,
   (C1_amended_kids_in_id_order [exDocC1] stC1 rfl).2 []⟩

/-- Claim C2, amended: when several objects classify as Catalog, the first one
encountered supplies the authoritative identifier, but the Object value kept
as the working Catalog is the last Catalog encountered — each later Catalog
replaces (without merging) the previously held value. -/
theorem C2_amended_first_id_last_value (entries : List (Nat × Object)) (doc : Document) :
    (reconcile entries doc).catalog_object =
      (catalogEntriesOf entries).head?.bind (fun h =>
        (catalogEntriesOf entries).getLast?.map (fun l => (h.1, l.2))) := by
  unfold reconcile
  rw [foldl_classify_catalog]
  exact catFold_none (catalogEntriesOf entries)

/-- Claim C3: in the working Pages object produced by reconciliation, the
value found under any key is the value of the first-encountered Pages
dictionary that carries that key — first-seen Pages fields win on every
collision (each merge step takes the new dictionary as base and layers the
accumulated dictionary on top). -/
theorem C3_pages_first_seen_wins (entries : List (Nat × Object)) (doc : Document)
    (k : String)
    (hnd : ∀ pr ∈ pagesEntriesOf entries, (pr.2.map Prod.fst).Nodup) :
    pagesLookup (reconcile entries doc).pages_object k =
      ((pagesEntriesOf entries).filterMap (fun pr => dictGet pr.2 k)).head? := by
  have hshape : pagesShape
      (ReconcileState.mk none none doc).pages_object := by
    intro i o hio
    cases hio
  unfold reconcile
  rw [foldl_classify_pages_lookup entries _ k hnd hshape]
  rfl

/-- Witness for claim C3: two Pages dictionaries colliding on key A; the
first-seen value (1) wins. -/
theorem C3_witness :
    pagesLookup (reconcile entsC3 (Document.with_version "1.5")).pages_object "A" =
      ((pagesEntriesOf entsC3).filterMap (fun pr => dictGet pr.2 "A")).head? ∧
    ((pagesEntriesOf entsC3).filterMap (fun pr => dictGet pr.2 "A")).head? =
      some (Object.Integer 1) :=
  ⟨C3_pages_first_seen_wins entsC3 (Document.with_version "1.5") "A" (by decide), rfl⟩

/-- Claim C4: when both roots are found, every collected page entry that is a
dictionary is reparented to the authoritative Pages id and is present in the
store after the page loop; and the rebuilt Pages dictionary's Count equals the
number of collected pages, which equals the length of its Kids list of
references. -/
theorem C4_page_tree_rebuild (docs : List Document) (st : CollectState)
    (pid cid : Nat) (pobj cobj : Object)
    (h1 : collectPhase docs = some st)
    (h2 : (reconcile st.documents_objects st.document).pages_object = some (pid, pobj))
    (h3 : (reconcile st.documents_objects st.document).catalog_object = some (cid, cobj)) :
    (∀ e ∈ st.documents_pages, ∀ d, e.2.as_dict = some d →
      btreeLookup (pagesLoopDoc (reconcile st.documents_objects st.document).document
          st.documents_pages pid).objects e.1 =
        some (Object.Dictionary (dictSet d "Parent" (Object.Reference pid)))) ∧
    (∀ pd,
      dictGet (rebuildPagesDict pd st.documents_pages) "Count" =
        some (Object.Integer st.documents_pages.length) ∧
      dictGet (rebuildPagesDict pd st.documents_pages) "Kids" =
        some (Object.Array (st.documents_pages.map (fun e => Object.Reference e.1))) ∧
      (st.documents_pages.map (fun e => Object.Reference e.1)).length =
        st.documents_pages.length) := by
  constructor
  · intro e he d hd
    have hsorted : keysSorted st.documents_pages := by
      unfold collectPhase at h1
      exact (collectAux_invariants docs initCollectState st h1).2.2.1
        (by simp [initCollectState, keysSorted])
    have hnd : (st.documents_pages.map Prod.fst).Nodup :=
      List.Pairwise.imp (fun hlt => Nat.ne_of_lt hlt) hsorted
    exact pagesLoopDoc_lookup_mem st.documents_pages _ pid hnd e he d hd
  · intro pd
    refine ⟨?_, ?_, ?_⟩
    · unfold rebuildPagesDict
      rw [dictGet_dictSet_ne _ _ _ _ (by decide)]
      exact dictGet_dictSet_self _ _ _
    · unfold rebuildPagesDict
      exact dictGet_dictSet_self _ _ _
    · simp

set_option maxHeartbeats 1000000 in
/-- Witness for claim C4 at the concrete input `exDocTwoPages`: page 2 is
reparented under the Pages root 1, and the rebuilt Count is the collected
page total. -/
theorem C4_witness :
    btreeLookup (pagesLoopDoc (reconcile stC4.documents_objects stC4.document).document
        stC4.documents_pages 1).objects 2 =
      some (Object.Dictionary (dictSet [("Type", Object.Name "Page")] "Parent"
        (Object.Reference 1))) ∧
    dictGet (rebuildPagesDict [] stC4.documents_pages) "Count" =
      some (Object.Integer stC4.documents_pages.length) :=
  ⟨(C4_page_tree_rebuild [exDocTwoPages] stC4 1 4 pobjC4 cobjC4 rfl rfl rfl).1
      (2, pageDict) (List.mem_cons_self _ _) [("Type", Object.Name "Page")] rfl,
   ((C4_page_tree_rebuild [exDocTwoPages] stC4 1 4 pobjC4 cobjC4 rfl rfl rfl).2 []).1⟩

/-- Claim C5: the merge renumbers each input at the running offset (starting
at 1, stepping to the previous document's max_id + 1), and after renumbering
no two input documents share an object id. -/
theorem C5_renumbered_ids_disjoint (docs : List Document) :
    List.Pairwise (fun d1 d2 => d1.objectIds.Disjoint d2.objectIds)
      (renumberSeq docs 1) :=
  renumberSeq_pairwise_disjoint docs 1

/-- Claim C6: the bookmark list built by the collection loop is exactly one
bookmark per input that contributes at least one page, titled Page_1, Page_2,
… in input order by a counter incremented once per contributing input, each
targeting that input's first collected page. -/
theorem C6_one_bookmark_per_contributor (docs : List Document) (st : CollectState)
    (h : collectPhase docs = some st) :
    st.document.bookmarks = specBookmarks docs := by
  unfold collectPhase at h
  have hb := collectAux_bookmarks docs initCollectState st h
  simpa [initCollectState, Document.with_version, specBookmarks] using hb

set_option maxHeartbeats 1000000 in
/-- Witness for claim C6: a two-page input followed by a one-page input yields
bookmarks Page_1 (targeting page 2) and Page_2 (targeting page 7). -/
theorem C6_witness :
    stC6.document.bookmarks = specBookmarks [exDocTwoPages, exDocX 5] ∧
    stC6.document.bookmarks =
      [{ title := "Page_1", color := (0, 0, 1), level := 0, page := 2 },
       { title := "Page_2", color := (0, 0, 1), level := 0, page := 7 }] :=
  ⟨C6_one_bookmark_per_contributor [exDocTwoPages, exDocX 5] stC6 rfl, rfl⟩

/-- Claim C8: when nothing classifies as Pages, the merge returns the
partially built store: exactly the objects whose role is none of Catalog,
Pages, Page, Outlines and Outline, with no trailer Root set. -/
theorem C8_missing_pages_partial (docs : List Document) (st : CollectState)
    (h1 : collectPhase docs = some st)
    (h2 : (reconcile st.documents_objects st.document).pages_object = none) :
    merge_documents docs = some (reconcile st.documents_objects st.document).document ∧
    (reconcile st.documents_objects st.document).document.objects =
      st.documents_objects.filter isOtherEntry ∧
    dictGet (reconcile st.documents_objects st.document).document.trailer "Root" =
      none := by
  have h1' := h1
  unfold collectPhase at h1'
  have hinv := collectAux_invariants docs initCollectState st h1'
  have hobj : st.document.objects = [] := hinv.1
  have htr : st.document.trailer = [] := hinv.2.1
  have hsorted : keysSorted st.documents_objects :=
    hinv.2.2.2 (by simp [initCollectState, keysSorted])
  refine ⟨?_, ?_, ?_⟩
  · simp only [merge_documents, h1, h2]
  · unfold reconcile
    rw [foldl_classify_objects]
    · rw [hobj, List.nil_append]
    · rw [hobj]
      simpa [keysSorted] using hsorted
  · unfold reconcile
    rw [foldl_classify_trailer]
    rw [htr]
    rfl

set_option maxHeartbeats 1000000 in
/-- Witness for claim C8 at the concrete no-Pages input `exDocC8`. -/
theorem C8_witness :
    merge_documents [exDocC8] =
      some (reconcile stC8.documents_objects stC8.document).document ∧
    (reconcile stC8.documents_objects stC8.document).document.objects =
      stC8.documents_objects.filter isOtherEntry ∧
    dictGet (reconcile stC8.documents_objects stC8.document).document.trailer "Root" =
      none :=
  C8_missing_pages_partial [exDocC8] stC8 rfl rfl

/-- Claim C9, amended: when a Pages root exists but nothing classifies as
Catalog, the merge returns right after the page-reparenting loop — the pages
have been reparented and inserted, but the authoritative Pages object's Kids
and Count have not been rewritten (the working Pages object is not inserted at
all) and no trailer Root is set. -/
theorem C9_amended_stops_before_rebuild (docs : List Document) (st : CollectState)
    (pid : Nat) (pobj : Object)
    (h1 : collectPhase docs = some st)
    (h2 : (reconcile st.documents_objects st.document).pages_object = some (pid, pobj))
    (h3 : (reconcile st.documents_objects st.document).catalog_object = none) :
    merge_documents docs =
      some (pagesLoopDoc (reconcile st.documents_objects st.document).document
        st.documents_pages pid) ∧
    dictGet (pagesLoopDoc (reconcile st.documents_objects st.document).document
        st.documents_pages pid).trailer "Root" = none := by
  constructor
  · simp only [merge_documents, h1, h2, h3]
  · rw [pagesLoopDoc_trailer]
    unfold reconcile
    rw [foldl_classify_trailer]
    have h1' := h1
    unfold collectPhase at h1'
    rw [(collectAux_invariants docs initCollectState st h1').2.1]
    rfl

set_option maxHeartbeats 1000000 in
/-- Witness for the amended claim C9 at the concrete input `exDocC9`. -/
theorem C9_amended_witness :
    merge_documents [exDocC9] =
      some (pagesLoopDoc (reconcile stC9.documents_objects stC9.document).document
        stC9.documents_pages 2) ∧
    dictGet (pagesLoopDoc (reconcile stC9.documents_objects stC9.document).document
        stC9.documents_pages 2).trailer "Root" = none :=
  C9_amended_stops_before_rebuild [exDocC9] stC9 2 pobjC9 rfl rfl rfl

/-- Claim C10: the merge panics (modelled as `none`) exactly when some page id
listed by a renumbered input's get_pages does not resolve through get_object
in that document's store; totality holds exactly when every listed id is
present. -/
theorem C10_unwrap_panic_iff (docs : List Document) :
    merge_documents docs = none ↔
      ∃ d ∈ renumberSeq docs 1, ∃ p ∈ d.get_pages, d.get_object p.2 = none := by
  rw [merge_none_iff_collect_none]
  unfold collectPhase
  have h := collectAux_none_iff docs initCollectState
  simpa [initCollectState] using h

end PdfMerge
